import Mathlib

/-!
Shallow embedding of the resilient collection and normalization layer of an
F1 data collector (`ErgastCollector` in `src/data/collectors/ergast_collector.py`).

The embedding covers:
* the request executor `_make_request` together with the retry policy
  configured in `_create_session` (`urllib3.util.retry.Retry` with
  `total=3`, `status_forcelist=[429, 500, 502, 503, 504]`), the
  `raise_for_status` check and the `time.sleep(rate_limit)` throttle;
* the parameter handling `params.setdefault("limit", 1000)`;
* the six endpoint extractors (`get_seasons`, `get_races`, `get_results`,
  `get_qualifying`, `get_drivers`, `get_constructors`).

Python dictionaries are modelled as association lists in insertion order
(`Rec`); Python `int(...)` / `float(...)` / `str.isdigit` are modelled by
`pyInt` / `pyFloat` / `pyIsDigit` on the domain the collector feeds them
(decimal strings with an optional sign); raised Python exceptions are
modelled by `Except`.  `pd.to_datetime` is treated as an opaque tagging of
the date string.  Network responses are modelled as a list of
(status, parsed body) pairs consumed attempt by attempt.
-/

/-- Scalar values held in an output record (a Python dict value). -/
inductive Val where
  | int (n : Int)
  | num (q : ℚ)
  | str (s : String)
  | none
  | date (s : String)
deriving DecidableEq, Repr

/-- An output record: a Python dict modelled as an association list in
insertion order. -/
abbrev Rec := List (String × Val)

/-- Events observable during `_make_request`: an HTTP attempt being issued
(with the status it came back with) and a `time.sleep` call. -/
inductive Ev where
  | attempt (status : Nat)
  | sleep (d : ℚ)
deriving DecidableEq, Repr

/-- Failure modes of the request executor (`requests.RequestException`
variants): retry budget exhausted (`MaxRetryError` / `RetryError`), a
non-retryable HTTP error raised by `raise_for_status`, or the simulated
response sequence running out. -/
inductive ReqError where
  | maxRetries
  | httpStatus (code : Nat)
  | noResponse
deriving DecidableEq, Repr

deriving instance DecidableEq for Except

/-- `status_forcelist=[429, 500, 502, 503, 504]` from `_create_session`. -/
def retryableStatuses : List Nat := [429, 500, 502, 503, 504]

/-- One `session.get` call under the mounted `HTTPAdapter`'s retry policy.
`retriesLeft` is the remaining `Retry.total` budget; each response is taken
from the front of `responses`.  A response whose status is in the forcelist
consumes one retry; when the budget is exhausted the adapter raises
(`MaxRetryError`).  Any other status is handed back to the caller.  Returns
the outcome together with the trace of issued attempts. -/
def sessionGet {β : Type} : Nat → List (Nat × β) → Except ReqError (Nat × β) × List Ev
  | _, [] => (.error .noResponse, [])
  | retriesLeft, (s, b) :: rest =>
    if s ∈ retryableStatuses then
      match retriesLeft with
      | 0 => (.error .maxRetries, [Ev.attempt s])
      | r + 1 =>
        let out := sessionGet r rest
        (out.1, Ev.attempt s :: out.2)
    else
      (.ok (s, b), [Ev.attempt s])

/-- `dict.setdefault k v`: leave the dict unchanged when the key is present,
otherwise append the pair at the end (Python insertion order). -/
def setdefault (k : String) (v : Val) (ps : List (String × Val)) : List (String × Val) :=
  if (ps.map Prod.fst).contains k then ps else ps ++ [(k, v)]

/-- Observable outcome of `_make_request`: the returned JSON body or the
raised exception, the event trace (attempts and sleeps in order), and the
caller's `params` dict as it stands after the call. -/
structure MkOut (β : Type) where
  result : Except ReqError β
  trace : List Ev
  paramsAfter : List (String × Val)
deriving DecidableEq, Repr

/-- `ErgastCollector._make_request`: apply `params.setdefault("limit", 1000)`,
issue `session.get` (retry budget `total=3` from `_create_session`), run
`raise_for_status` (raises for statuses in [400, 600)), and on success
`time.sleep(rate_limit)` before returning the parsed body. -/
def makeRequest {β : Type} (rateLimit : ℚ) (params : List (String × Val))
    (responses : List (Nat × β)) : MkOut β :=
  let params2 := setdefault "limit" (Val.int 1000) params
  match sessionGet 3 responses with
  | (Except.error e, evs) => ⟨.error e, evs, params2⟩
  | (Except.ok (s, b), evs) =>
    if 400 ≤ s && s < 600 then ⟨.error (.httpStatus s), evs, params2⟩
    else ⟨.ok b, evs ++ [Ev.sleep rateLimit], params2⟩

/-- Number of HTTP attempts recorded in a trace. -/
def attemptCount (evs : List Ev) : Nat :=
  evs.countP (fun e => match e with | .attempt _ => true | _ => false)

/-- Value of a list of decimal digit characters. -/
def digitsToNat (cs : List Char) : Nat :=
  cs.foldl (fun a c => a * 10 + (c.toNat - 48)) 0

/-- Python `str.isdigit()` (on the ASCII domain the collector feeds it):
true iff the string is non-empty and all characters are digits. -/
def pyIsDigit (s : String) : Bool :=
  !s.data.isEmpty && s.data.all Char.isDigit

/-- Kernel of Python `int(...)` on an unsigned character list: non-empty and
all digits, else `ValueError`. -/
def pyNatCore (cs : List Char) : Option Nat :=
  if !cs.isEmpty && cs.all Char.isDigit then some (digitsToNat cs) else none

/-- Python `int(...)` on a character list: optional sign then digits. -/
def pyIntChars (cs : List Char) : Option Int :=
  if cs.head? = some '+' then (pyNatCore cs.tail).map (fun n => (n : Int))
  else if cs.head? = some '-' then (pyNatCore cs.tail).map (fun n => -(n : Int))
  else (pyNatCore cs).map (fun n => (n : Int))

/-- Python `int(str)` on the decimal strings this collector feeds it. -/
def pyInt (s : String) : Option Int := pyIntChars s.data

/-- Split a character list at the first dot. -/
def splitAtDot : List Char → List Char × Option (List Char)
  | [] => ([], Option.none)
  | '.' :: rest => ([], some rest)
  | c :: rest =>
    let out := splitAtDot rest
    (c :: out.1, out.2)

/-- Magnitude of Python `float(...)`: integer part, optional dot, optional
fractional part, at least one digit overall. -/
def pyFloatMag (cs : List Char) : Option ℚ :=
  match splitAtDot cs with
  | (ip, Option.none) =>
    if !ip.isEmpty && ip.all Char.isDigit then some ((digitsToNat ip : ℚ)) else Option.none
  | (ip, some fp) =>
    if ip.all Char.isDigit && fp.all Char.isDigit && (!ip.isEmpty || !fp.isEmpty) then
      some ((digitsToNat ip : ℚ) + (digitsToNat fp : ℚ) / (10 : ℚ) ^ fp.length)
    else Option.none

/-- Python `float(...)` on a character list: optional sign then magnitude. -/
def pyFloatChars (cs : List Char) : Option ℚ :=
  if cs.head? = some '+' then pyFloatMag cs.tail
  else if cs.head? = some '-' then (pyFloatMag cs.tail).map (fun q => -q)
  else pyFloatMag cs

/-- Python `float(str)` on the decimal strings this collector feeds it. -/
def pyFloat (s : String) : Option ℚ := pyFloatChars s.data

/-- Python exceptions raised inside an extractor: `ValueError` from
`int(...)` or `float(...)` on a malformed string. -/
inductive PyErr where
  | intParse (s : String)
  | floatParse (s : String)
deriving DecidableEq, Repr

/-- `int(s)` as an exception-raising computation. -/
def toIntE (s : String) : Except PyErr Int :=
  match pyInt s with
  | some n => .ok n
  | Option.none => .error (.intParse s)

/-- `float(s)` as an exception-raising computation. -/
def toFloatE (s : String) : Except PyErr ℚ :=
  match pyFloat s with
  | some q => .ok q
  | Option.none => .error (.floatParse s)

/-- A Python `for` loop that builds one output element per input element and
propagates the first raised exception, discarding partial output. -/
def mapE {α β : Type} (f : α → Except PyErr β) : List α → Except PyErr (List β)
  | [] => .ok []
  | a :: l =>
    match f a with
    | .error e => .error e
    | .ok b =>
      match mapE f l with
      | .error e => .error e
      | .ok bs => .ok (b :: bs)

/-! ## Source-side JSON shapes

Structures mirror the fields the extractors access.  `Option` marks fields
the code reads with `.get(...)` or guards with `"key" in ...`; all other
fields are accessed unconditionally (the claims never exercise a missing
mandatory key, so those are plain fields). -/

/-- A `Driver` JSON object. -/
structure SrcDriver where
  driverId : String
  givenName : String
  familyName : String
  nationality : String
  dateOfBirth : Option String
  url : Option String
deriving DecidableEq, Repr

/-- A `Constructor` JSON object. -/
structure SrcConstructor where
  constructorId : String
  name : String
  nationality : String
  url : Option String
deriving DecidableEq, Repr

/-- A result's `Time` block; the code checks `"time" in result["Time"]`. -/
structure SrcTimeBlock where
  time : Option String
deriving DecidableEq, Repr

/-- A `FastestLap` block: `rank` read with `.get("rank", 0)`; `Time` holds
the `["Time"]["time"]` string when the nested block is present. -/
structure SrcFastestLap where
  rank : Option String
  Time : Option String
deriving DecidableEq, Repr

/-- One entry of a race's `Results` list. -/
structure SrcResult where
  position : String
  grid : String
  laps : String
  status : String
  points : String
  Driver : SrcDriver
  Constructor : SrcConstructor
  Time : Option SrcTimeBlock
  FastestLap : Option SrcFastestLap
deriving DecidableEq, Repr

/-- One entry of a race's `QualifyingResults` list. -/
structure SrcQualResult where
  position : String
  Driver : SrcDriver
  Constructor : SrcConstructor
  Q1 : Option String
  Q2 : Option String
  Q3 : Option String
deriving DecidableEq, Repr

/-- One race block of a `RaceTable` (the `Circuit` subobject is flattened
into the `circuitId`/`circuitName`/`country` fields the code reads). -/
structure SrcRace where
  season : String
  round : String
  raceName : String
  circuitId : String
  circuitName : String
  country : String
  date : String
  time : Option String
  url : Option String
  Results : List SrcResult
  QualifyingResults : List SrcQualResult
deriving DecidableEq, Repr

/-! ## Extractors -/

/-- `ErgastCollector.get_seasons` after the envelope walk: keep the seasons
whose year lies in `[startYear, endYear]` (both inclusive) and return them
sorted ascending.  `int(season["season"])` is evaluated for every item, so
a malformed item raises even when it would be filtered out. -/
def get_seasons (startYear endYear : Int) (seasonsData : List String) :
    Except PyErr (List Int) :=
  match mapE toIntE seasonsData with
  | .error e => .error e
  | .ok vals =>
    .ok (List.insertionSort (· ≤ ·)
      (vals.filter (fun y => decide (startYear ≤ y ∧ y ≤ endYear))))

/-- The `race_info` dict built for one race block in `get_races`. -/
def extractRaceRecord (race : SrcRace) : Except PyErr Rec :=
  match pyInt race.season, pyInt race.round with
  | some sn, some rd =>
    .ok ([("season", Val.int sn),
          ("round", Val.int rd),
          ("race_id", Val.str (race.season ++ "_" ++ race.round)),
          ("race_name", Val.str race.raceName),
          ("circuit_id", Val.str race.circuitId),
          ("circuit_name", Val.str race.circuitName),
          ("country", Val.str race.country),
          ("date", Val.date race.date),
          ("url", Val.str (race.url.getD ""))] ++
         (match race.time with
          | some t => [("time", Val.str t)]
          | Option.none => []))
  | Option.none, _ => .error (.intParse race.season)
  | some _, Option.none => .error (.intParse race.round)

/-- `ErgastCollector.get_races` after the envelope walk. -/
def get_races (racesData : List SrcRace) : Except PyErr (List Rec) :=
  mapE extractRaceRecord racesData

/-- The shared `race_info` dict built by `get_results` / `get_qualifying`
for one race block. -/
def resultRaceInfo (race : SrcRace) : Except PyErr Rec :=
  match pyInt race.season, pyInt race.round with
  | some sn, some rd =>
    .ok [("season", Val.int sn),
         ("round", Val.int rd),
         ("race_name", Val.str race.raceName),
         ("circuit_id", Val.str race.circuitId),
         ("date", Val.date race.date)]
  | Option.none, _ => .error (.intParse race.season)
  | some _, Option.none => .error (.intParse race.round)

/-- The optional `race_time` entry (`"Time" in result and "time" in
result["Time"]`). -/
def raceTimeFields : Option SrcTimeBlock → Rec
  | some tb =>
    match tb.time with
    | some t => [("race_time", Val.str t)]
    | Option.none => []
  | Option.none => []

/-- The entries appended when a `FastestLap` block is present: the parsed
rank (`int(fastest_lap.get("rank", 0))`) and, when its `Time` block is
present, the fastest lap time. -/
def flFields (fl : SrcFastestLap) (rk : Int) : Rec :=
  [("fastest_lap_rank", Val.int rk)] ++
  (match fl.Time with
   | some t => [("fastest_lap_time", Val.str t)]
   | Option.none => [])

/-- The unconditional fields `get_results` layers on top of the race info
for one result item. -/
def resultBase (ri : Rec) (r : SrcResult) (laps : Int) (pts : ℚ) : Rec :=
  ri ++
  [("position", if pyIsDigit r.position then Val.int (digitsToNat r.position.data) else Val.none),
   ("driver_id", Val.str r.Driver.driverId),
   ("driver_name", Val.str (r.Driver.givenName ++ " " ++ r.Driver.familyName)),
   ("constructor_id", Val.str r.Constructor.constructorId),
   ("constructor_name", Val.str r.Constructor.name),
   ("grid", if pyIsDigit r.grid then Val.int (digitsToNat r.grid.data) else Val.none),
   ("laps", Val.int laps),
   ("status", Val.str r.status),
   ("points", Val.num pts)] ++
  raceTimeFields r.Time

/-- One `result_info` record of `get_results`: the race info copy updated
with per-driver fields, then the optional race time and fastest-lap
fields.  `int(result["laps"])` and `float(result["points"])` raise on
malformed input; `position`/`grid` fall back to `None` when not all
digits; a present `FastestLap` without a `rank` key parses `int(0) = 0`. -/
def extractResultItem (ri : Rec) (r : SrcResult) : Except PyErr Rec :=
  match toIntE r.laps with
  | .error e => .error e
  | .ok laps =>
    match toFloatE r.points with
    | .error e => .error e
    | .ok pts =>
      match r.FastestLap with
      | Option.none => .ok (resultBase ri r laps pts)
      | some fl =>
        match fl.rank with
        | Option.none => .ok (resultBase ri r laps pts ++ flFields fl 0)
        | some rs =>
          match toIntE rs with
          | .error e => .error e
          | .ok rk => .ok (resultBase ri r laps pts ++ flFields fl rk)

/-- The per-race inner loop of `get_results`. -/
def extractResultsBlock (race : SrcRace) : Except PyErr (List Rec) :=
  match resultRaceInfo race with
  | .error e => .error e
  | .ok ri => mapE (extractResultItem ri) race.Results

/-- `ErgastCollector.get_results` after the envelope walk: the flattened
per-race, per-driver records. -/
def get_results (racesData : List SrcRace) : Except PyErr (List Rec) :=
  match mapE extractResultsBlock racesData with
  | .error e => .error e
  | .ok blocks => .ok blocks.flatten

/-- The optional `q1_time`/`q2_time`/`q3_time` entries of one qualifying
record, in session order. -/
def qualSessionFields (q : SrcQualResult) : Rec :=
  (match q.Q1 with | some t => [("q1_time", Val.str t)] | Option.none => []) ++
  (match q.Q2 with | some t => [("q2_time", Val.str t)] | Option.none => []) ++
  (match q.Q3 with | some t => [("q3_time", Val.str t)] | Option.none => [])

/-- One `qual_info` record of `get_qualifying`.  Unlike `get_results`, the
position is parsed unconditionally with `int(qual["position"])`. -/
def extractQualItem (ri : Rec) (q : SrcQualResult) : Except PyErr Rec :=
  match toIntE q.position with
  | .error e => .error e
  | .ok pos =>
    .ok (ri ++
      [("position", Val.int pos),
       ("driver_id", Val.str q.Driver.driverId),
       ("driver_name", Val.str (q.Driver.givenName ++ " " ++ q.Driver.familyName)),
       ("constructor_id", Val.str q.Constructor.constructorId),
       ("constructor_name", Val.str q.Constructor.name)] ++
      qualSessionFields q)

/-- The per-race inner loop of `get_qualifying`. -/
def extractQualBlock (race : SrcRace) : Except PyErr (List Rec) :=
  match resultRaceInfo race with
  | .error e => .error e
  | .ok ri => mapE (extractQualItem ri) race.QualifyingResults

/-- `ErgastCollector.get_qualifying` after the envelope walk. -/
def get_qualifying (racesData : List SrcRace) : Except PyErr (List Rec) :=
  match mapE extractQualBlock racesData with
  | .error e => .error e
  | .ok blocks => .ok blocks.flatten

/-- One driver record of `get_drivers` (`url` defaults to `""`, the date of
birth is added only when present). -/
def extractDriverRecord (d : SrcDriver) : Rec :=
  [("driver_id", Val.str d.driverId),
   ("given_name", Val.str d.givenName),
   ("family_name", Val.str d.familyName),
   ("driver_name", Val.str (d.givenName ++ " " ++ d.familyName)),
   ("nationality", Val.str d.nationality),
   ("url", Val.str (d.url.getD ""))] ++
  (match d.dateOfBirth with
   | some dob => [("date_of_birth", Val.date dob)]
   | Option.none => [])

/-- `ErgastCollector.get_drivers` after the envelope walk. -/
def get_drivers (driversData : List SrcDriver) : List Rec :=
  driversData.map extractDriverRecord

/-- One constructor record of `get_constructors`. -/
def extractConstructorRecord (c : SrcConstructor) : Rec :=
  [("constructor_id", Val.str c.constructorId),
   ("constructor_name", Val.str c.name),
   ("nationality", Val.str c.nationality),
   ("url", Val.str (c.url.getD ""))]

/-- `ErgastCollector.get_constructors` after the envelope walk. -/
def get_constructors (constructorsData : List SrcConstructor) : List Rec :=
  constructorsData.map extractConstructorRecord

/-! ## Statement-side predicates and concrete fixtures -/

/-- The fastest-lap rank of a result parses: either no `FastestLap` block,
or no `rank` key (the code then parses the literal default `0`), or a rank
string accepted by `int(...)`. -/
def rankParses (r : SrcResult) : Bool :=
  match r.FastestLap with
  | some fl =>
    match fl.rank with
    | some rs => (pyInt rs).isSome
    | Option.none => true
  | Option.none => true

/-- `s` is the canonical decimal rendering of a natural number (all digits,
round-trips through `digitsToNat`). -/
def isCanonNat (s : String) : Bool :=
  pyIsDigit s && (toString (digitsToNat s.data) == s)

/-- Concrete driver fixture without optional fields. -/
def fixDriver : SrcDriver :=
  { driverId := "ham", givenName := "Lewis", familyName := "Hamilton",
    nationality := "British", dateOfBirth := Option.none, url := Option.none }

/-- Concrete constructor fixture without a url. -/
def fixCons : SrcConstructor :=
  { constructorId := "mercedes", name := "Mercedes", nationality := "German",
    url := Option.none }

/-- A retired result: non-digit position, a `FastestLap` block without a
`rank` key, and a negative points string. -/
def fixResultRetired : SrcResult :=
  { position := "R", grid := "20", laps := "10", status := "Retired",
    points := "-1", Driver := fixDriver, Constructor := fixCons,
    Time := Option.none, FastestLap := some { rank := Option.none, Time := Option.none } }

/-- A qualifying entry whose position is a non-digit marker. -/
def fixQualR : SrcQualResult :=
  { position := "R", Driver := fixDriver, Constructor := fixCons,
    Q1 := Option.none, Q2 := Option.none, Q3 := Option.none }

/-- A race block fixture (2024 round 1) carrying the given results and
qualifying entries. -/
def fixRace (results : List SrcResult) (quals : List SrcQualResult) : SrcRace :=
  { season := "2024", round := "1", raceName := "Bahrain Grand Prix",
    circuitId := "bahrain", circuitName := "Bahrain International Circuit",
    country := "Bahrain", date := "2024-03-02", time := Option.none,
    url := Option.none, Results := results, QualifyingResults := quals }

/-- Expected shared race-info record for `fixRace`. -/
def fixRaceInfoRec : Rec :=
  [("season", Val.int 2024), ("round", Val.int 1),
   ("race_name", Val.str "Bahrain Grand Prix"),
   ("circuit_id", Val.str "bahrain"),
   ("date", Val.date "2024-03-02")]

/-- Expected per-driver tail of the record extracted from
`fixResultRetired` (null position, zero-defaulted fastest-lap rank and a
negative points value copied from the source). -/
def fixRetiredRec : Rec :=
  [("position", Val.none),
   ("driver_id", Val.str "ham"),
   ("driver_name", Val.str "Lewis Hamilton"),
   ("constructor_id", Val.str "mercedes"),
   ("constructor_name", Val.str "Mercedes"),
   ("grid", Val.int 20),
   ("laps", Val.int 10),
   ("status", Val.str "Retired"),
   ("points", Val.num (-1)),
   ("fastest_lap_rank", Val.int 0)]

/-- A well-formed qualifying entry with only a Q1 time recorded. -/
def fixQualOk : SrcQualResult :=
  { position := "3", Driver := fixDriver, Constructor := fixCons,
    Q1 := some "1:30.0", Q2 := Option.none, Q3 := Option.none }

/-- Expected record extracted from `fixQualOk` over an empty race info. -/
def fixQualOkRec : Rec :=
  [("position", Val.int 3),
   ("driver_id", Val.str "ham"),
   ("driver_name", Val.str "Lewis Hamilton"),
   ("constructor_id", Val.str "mercedes"),
   ("constructor_name", Val.str "Mercedes"),
   ("q1_time", Val.str "1:30.0")]

/-- Expected race record extracted from `fixRace` (no local time in the
source, missing url defaulted to the empty string). -/
def fixRaceRec : Rec :=
  [("season", Val.int 2024), ("round", Val.int 1),
   ("race_id", Val.str "2024_1"),
   ("race_name", Val.str "Bahrain Grand Prix"),
   ("circuit_id", Val.str "bahrain"),
   ("circuit_name", Val.str "Bahrain International Circuit"),
   ("country", Val.str "Bahrain"),
   ("date", Val.date "2024-03-02"),
   ("url", Val.str "")]

/-- Expected record extracted from `fixDriver` (no date of birth in the
source, missing url defaulted to the empty string). -/
def fixDriverRec : Rec :=
  [("driver_id", Val.str "ham"),
   ("given_name", Val.str "Lewis"),
   ("family_name", Val.str "Hamilton"),
   ("driver_name", Val.str "Lewis Hamilton"),
   ("nationality", Val.str "British"),
   ("url", Val.str "")]

/-! ## Helper lemmas: request executor -/

/-- Every event emitted by the retrying `session.get` is an HTTP attempt. -/
theorem sessionGet_all_attempts {β : Type} :
    ∀ (n : Nat) (rs : List (Nat × β)), ∀ e ∈ (sessionGet n rs).2, ∃ s, e = Ev.attempt s := by
  intro n rs
  induction rs generalizing n with
  | nil => intro e he; simp [sessionGet] at he
  | cons p rest ih =>
    intro e he
    rcases p with ⟨s, b⟩
    by_cases hs : s ∈ retryableStatuses
    · cases n with
      | zero =>
        simp [sessionGet, hs] at he
        exact ⟨s, he⟩
      | succ r =>
        simp [sessionGet, hs] at he
        rcases he with he | he
        · exact ⟨s, he⟩
        · exact ih r e he
    · cases n with
      | zero =>
        simp [sessionGet, hs] at he
        exact ⟨s, he⟩
      | succ r =>
        simp [sessionGet, hs] at he
        exact ⟨s, he⟩

/-- A successful `session.get` issued at least one attempt. -/
theorem sessionGet_ok_trace_ne_nil {β : Type} :
    ∀ (n : Nat) (rs : List (Nat × β)) (x : Nat × β),
      (sessionGet n rs).1 = .ok x → (sessionGet n rs).2 ≠ [] := by
  intro n rs
  induction rs generalizing n with
  | nil => intro x hx; simp [sessionGet] at hx
  | cons p rest ih =>
    intro x hx
    rcases p with ⟨s, b⟩
    by_cases hs : s ∈ retryableStatuses
    · cases n with
      | zero => simp [sessionGet, hs] at hx
      | succ r => simp [sessionGet, hs]
    · cases n with
      | zero => simp [sessionGet, hs]
      | succ r => simp [sessionGet, hs]

/-- At most `n + 1` attempts are issued with a retry budget of `n`. -/
theorem sessionGet_attempts_le {β : Type} :
    ∀ (n : Nat) (rs : List (Nat × β)), attemptCount (sessionGet n rs).2 ≤ n + 1 := by
  intro n rs
  induction rs generalizing n with
  | nil => simp [sessionGet, attemptCount]
  | cons p rest ih =>
    rcases p with ⟨s, b⟩
    by_cases hs : s ∈ retryableStatuses
    · cases n with
      | zero => simp [sessionGet, hs, attemptCount]
      | succ r =>
        have hr := ih r
        simp only [sessionGet, hs, if_true, attemptCount, List.countP_cons] at hr ⊢
        simp
        omega
    · cases n with
      | zero => simp [sessionGet, hs, attemptCount]
      | succ r => simp [sessionGet, hs, attemptCount]

/-- The params dict after `_make_request` is always the `setdefault` image
of the caller's dict, whatever the outcome. -/
theorem makeRequest_paramsAfter {β : Type} (rl : ℚ) (ps : List (String × Val))
    (rs : List (Nat × β)) :
    (makeRequest rl ps rs).paramsAfter = setdefault "limit" (Val.int 1000) ps := by
  unfold makeRequest
  rcases h : sessionGet 3 rs with ⟨res, evs⟩
  cases res with
  | error e => simp
  | ok sb =>
    rcases sb with ⟨s, b⟩
    by_cases hcode : (400 ≤ s && s < 600) = true <;> simp [hcode]

/-- If a key is absent from the key list, its lookup misses. -/
theorem lookup_eq_none_of_not_mem_keys (k : String) :
    ∀ (l : List (String × Val)), k ∉ l.map Prod.fst → List.lookup k l = Option.none := by
  intro l
  induction l with
  | nil => intro _; rfl
  | cons p rest ih =>
    rcases p with ⟨k', v⟩
    intro h
    rw [List.map_cons] at h
    have h1 : k ≠ k' := by
      intro e
      exact h (by rw [e]; exact List.mem_cons_self _ _)
    have h2 : k ∉ rest.map Prod.fst := fun hm => h (List.mem_cons_of_mem _ hm)
    have hk : (k == k') = false := beq_eq_false_iff_ne.mpr h1
    simp [List.lookup, hk]
    intro a b hab e
    apply h2
    rw [e]
    exact List.mem_map_of_mem Prod.fst hab

/-- `List.lookup` over an append: the left list wins when it has the key. -/
theorem lookup_append (k : String) (l₁ l₂ : List (String × Val)) :
    List.lookup k (l₁ ++ l₂) =
      (match List.lookup k l₁ with
       | some v => some v
       | Option.none => List.lookup k l₂) := by
  induction l₁ with
  | nil => rfl
  | cons p rest ih =>
    rcases p with ⟨k', v⟩
    by_cases hk : (k == k') = true
    · simp [List.lookup, hk]
    · simp only [List.cons_append, List.lookup]
      rw [Bool.not_eq_true] at hk
      simp [hk, ih]

/-! ## Claims about the request executor -/

/-- C1 counterexample: with the configured policy (`Retry(total=3)`), the
simulated sequence {503, 503, 503, 200} leads to a successful 4th attempt —
so after {503, 503, 503} a 4th attempt is issued and total attempts are not
capped at 3. -/
theorem c1_retry_cap_counterexample :
    (makeRequest 1 [] [((503 : Nat), (0 : Nat)), (503, 0), (503, 0), (200, 42)]).result
        = .ok 42 ∧
    attemptCount
      (makeRequest 1 [] [((503 : Nat), (0 : Nat)), (503, 0), (503, 0), (200, 42)]).trace
        = 4 := by
  decide

/-- C1 (amended): {503, 503, 200} succeeds after exactly 2 retries (3 total
attempts) returning the 200 payload; an all-retryable sequence is abandoned
with a transport error after the 4th attempt ({503, 503, 503, 503} fails
with no 5th attempt issued); total attempts are capped at 4
(initial + 3 retries) for every response sequence. -/
theorem c1_amended_retry_policy :
    ((makeRequest 1 [] [((503 : Nat), (0 : Nat)), (503, 0), (200, 7)]).result = .ok 7 ∧
      attemptCount
        (makeRequest 1 [] [((503 : Nat), (0 : Nat)), (503, 0), (200, 7)]).trace = 3) ∧
    ((makeRequest 1 [] [((503 : Nat), (0 : Nat)), (503, 0), (503, 0), (503, 0)]).result
        = .error .maxRetries ∧
      attemptCount
        (makeRequest 1 [] [((503 : Nat), (0 : Nat)), (503, 0), (503, 0), (503, 0)]).trace
          = 4) ∧
    (∀ (rl : ℚ) (ps : List (String × Val)) (rs : List (Nat × Nat)),
      attemptCount (makeRequest rl ps rs).trace ≤ 4) := by
  refine ⟨by decide, by decide, ?_⟩
  intro rl ps rs
  have hle := sessionGet_attempts_le (β := Nat) 3 rs
  unfold makeRequest
  rcases h : sessionGet 3 rs with ⟨res, evs⟩
  rw [h] at hle
  cases res with
  | error e => simpa using hle
  | ok sb =>
    rcases sb with ⟨s, b⟩
    by_cases hcode : (400 ≤ s && s < 600) = true
    · simpa [hcode] using hle
    · simp only [hcode, if_false, Bool.false_eq_true]
      simp only [attemptCount, List.countP_append] at hle ⊢
      simpa using hle

/-- C9: the rate-limit sleep happens exactly once per successful call, after
the last attempt and before control returns; it never happens on a failed
call and never before the first attempt. -/
theorem c9_rate_limit_once_per_success (rl : ℚ) (ps : List (String × Val))
    (rs : List (Nat × Nat)) :
    (∀ b : Nat, (makeRequest rl ps rs).result = .ok b →
      ∃ front, (makeRequest rl ps rs).trace = front ++ [Ev.sleep rl] ∧
        front ≠ [] ∧ ∀ e ∈ front, ∃ s, e = Ev.attempt s) ∧
    (∀ err : ReqError, (makeRequest rl ps rs).result = .error err →
      ∀ e ∈ (makeRequest rl ps rs).trace, ∃ s, e = Ev.attempt s) := by
  have hall := sessionGet_all_attempts (β := Nat) 3 rs
  have hne := sessionGet_ok_trace_ne_nil (β := Nat) 3 rs
  unfold makeRequest
  rcases h : sessionGet 3 rs with ⟨res, evs⟩
  rw [h] at hall
  constructor
  · intro b hb
    cases res with
    | error e => simp at hb
    | ok sb =>
      rcases sb with ⟨s, b'⟩
      by_cases hcode : (400 ≤ s && s < 600) = true
      · simp [hcode] at hb
      · refine ⟨evs, by simp [hcode], ?_, hall⟩
        have h1 : (sessionGet 3 rs).1 = Except.ok (s, b') := by rw [h]
        have h2 : (sessionGet 3 rs).2 = evs := by rw [h]
        have := hne (s, b') h1
        rw [h2] at this
        exact this
  · intro err herr
    cases res with
    | error e => simpa using hall
    | ok sb =>
      rcases sb with ⟨s, b'⟩
      by_cases hcode : (400 ≤ s && s < 600) = true
      · simpa [hcode] using hall
      · simp [hcode] at herr

/-- C9 witness: a single 200 response sleeps once after its only attempt; a
404 call fails with no sleep in its trace. -/
theorem c9_witness :
    (∃ front, (makeRequest 1 [] [((200 : Nat), (5 : Nat))]).trace = front ++ [Ev.sleep 1] ∧
      front ≠ [] ∧ ∀ e ∈ front, ∃ s, e = Ev.attempt s) ∧
    (∀ e ∈ (makeRequest 1 [] [((404 : Nat), (5 : Nat))]).trace, ∃ s, e = Ev.attempt s) :=
  ⟨(c9_rate_limit_once_per_success 1 [] [(200, 5)]).1 5 (by decide),
   (c9_rate_limit_once_per_success 1 [] [(404, 5)]).2 (.httpStatus 404) (by decide)⟩

/-- C10: a caller-supplied params dict without a `limit` key is mutated in
place — after the call it carries the appended `limit=1000` entry and is
observably different from its pre-call value; a dict that already has a
`limit` key is left unchanged. -/
theorem c10_params_setdefault (rl : ℚ) (rs : List (Nat × Nat))
    (ps : List (String × Val)) :
    ("limit" ∉ ps.map Prod.fst →
      (makeRequest rl ps rs).paramsAfter = ps ++ [("limit", Val.int 1000)] ∧
      (makeRequest rl ps rs).paramsAfter ≠ ps ∧
      List.lookup "limit" (makeRequest rl ps rs).paramsAfter = some (Val.int 1000)) ∧
    ("limit" ∈ ps.map Prod.fst →
      (makeRequest rl ps rs).paramsAfter = ps) := by
  rw [makeRequest_paramsAfter]
  constructor
  · intro hno
    have hc : ((ps.map Prod.fst).contains "limit") = false := by simpa using hno
    have hif : setdefault "limit" (Val.int 1000) ps = ps ++ [("limit", Val.int 1000)] := by
      unfold setdefault
      rw [hc]
      simp
    refine ⟨hif, ?_, ?_⟩
    · rw [hif]
      intro heq
      have := congrArg List.length heq
      simp at this
    · rw [hif, lookup_append, lookup_eq_none_of_not_mem_keys "limit" ps hno]
      rfl
  · intro hyes
    have hc : ((ps.map Prod.fst).contains "limit") = true := by simpa using hyes
    unfold setdefault
    rw [hc]
    simp

/-- C10 witness: an empty params dict gains `limit=1000`; a dict already
carrying `limit=5` is untouched. -/
theorem c10_witness :
    ((makeRequest 1 [] [((200 : Nat), (5 : Nat))]).paramsAfter
        = [("limit", Val.int 1000)] ∧
      (makeRequest 1 [] [((200 : Nat), (5 : Nat))]).paramsAfter ≠ [] ∧
      List.lookup "limit" (makeRequest 1 [] [((200 : Nat), (5 : Nat))]).paramsAfter
        = some (Val.int 1000)) ∧
    (makeRequest 1 [("limit", Val.int 5)] [((200 : Nat), (5 : Nat))]).paramsAfter
        = [("limit", Val.int 5)] := by
  constructor
  · have := (c10_params_setdefault 1 [(200, 5)] []).1 (by decide)
    simpa using this
  · exact (c10_params_setdefault 1 [(200, 5)] [("limit", Val.int 5)]).2 (by decide)

/-! ## Helper lemmas: extractor loops -/

/-- A `mapE` loop succeeds with `out` exactly when the items and outputs are
pointwise related by a successful body. -/
theorem mapE_ok_forall2 {α β : Type} (f : α → Except PyErr β) :
    ∀ (l : List α) (out : List β),
      mapE f l = .ok out ↔ List.Forall₂ (fun a b => f a = .ok b) l out := by
  intro l
  induction l with
  | nil =>
    intro out
    constructor
    · intro h
      cases out with
      | nil => exact List.Forall₂.nil
      | cons b bs => simp [mapE] at h
    · intro h
      cases h
      rfl
  | cons a l ih =>
    intro out
    constructor
    · intro h
      cases hf : f a with
      | error e => rw [mapE, hf] at h; cases h
      | ok b =>
        rw [mapE, hf] at h
        cases hm : mapE f l with
        | error e => rw [hm] at h; cases h
        | ok bs =>
          rw [hm] at h
          injection h with h
          subst h
          exact List.Forall₂.cons hf ((ih bs).mp hm)
    · intro h
      cases h with
      | cons hab htl =>
        rw [mapE, hab, (ih _).mpr htl]

/-- Right-to-left membership along a `Forall₂` relation. -/
theorem forall2_mem_right {α β : Type} {R : α → β → Prop} :
    ∀ {l₁ : List α} {l₂ : List β}, List.Forall₂ R l₁ l₂ →
      ∀ b ∈ l₂, ∃ a ∈ l₁, R a b := by
  intro l₁ l₂ h
  induction h with
  | nil => intro b hb; simp at hb
  | cons hab htl ih =>
    intro b hb
    rcases List.mem_cons.mp hb with hb | hb
    · subst hb
      exact ⟨_, List.mem_cons_self _ _, hab⟩
    · rcases ih b hb with ⟨a, ha, hr⟩
      exact ⟨a, List.mem_cons_of_mem _ ha, hr⟩

/-- Left-to-right membership along a `Forall₂` relation. -/
theorem forall2_mem_left {α β : Type} {R : α → β → Prop} :
    ∀ {l₁ : List α} {l₂ : List β}, List.Forall₂ R l₁ l₂ →
      ∀ a ∈ l₁, ∃ b ∈ l₂, R a b := by
  intro l₁ l₂ h
  induction h with
  | nil => intro a ha; simp at ha
  | cons hab htl ih =>
    intro a ha
    rcases List.mem_cons.mp ha with ha | ha
    · subst ha
      exact ⟨_, List.mem_cons_self _ _, hab⟩
    · rcases ih a ha with ⟨b, hb, hr⟩
      exact ⟨b, List.mem_cons_of_mem _ hb, hr⟩

/-- Mapping both sides of a `Forall₂` to equal images gives equal maps. -/
theorem forall2_map_eq {α β γ : Type} {R : α → β → Prop} (g : β → γ) (f : α → γ)
    (H : ∀ a b, R a b → g b = f a) :
    ∀ {l₁ : List α} {l₂ : List β}, List.Forall₂ R l₁ l₂ → l₂.map g = l₁.map f := by
  intro l₁ l₂ h
  induction h with
  | nil => rfl
  | cons hab htl ih => simp [List.map_cons, ih, H _ _ hab]

/-- `toIntE` succeeds exactly when `pyInt` does. -/
theorem toIntE_ok_iff (s : String) (n : Int) : toIntE s = .ok n ↔ pyInt s = some n := by
  unfold toIntE
  cases h : pyInt s with
  | none =>
    constructor
    · intro hh; cases hh
    · intro hh; cases hh
  | some m =>
    constructor
    · intro hh; injection hh with hh; rw [hh]
    · intro hh; injection hh with hh; rw [hh]

/-- `toFloatE` succeeds exactly when `pyFloat` does. -/
theorem toFloatE_ok_iff (s : String) (q : ℚ) : toFloatE s = .ok q ↔ pyFloat s = some q := by
  unfold toFloatE
  cases h : pyFloat s with
  | none =>
    constructor
    · intro hh; cases hh
    · intro hh; cases hh
  | some m =>
    constructor
    · intro hh; injection hh with hh; rw [hh]
    · intro hh; injection hh with hh; rw [hh]

/-! ## Claims about get_seasons -/

/-- C4 counterexample: a seasons response listing `2020` twice yields the
year twice — the output is not deduplicated. -/
theorem c4_dedup_counterexample :
    get_seasons 1950 2100 ["2020", "2020"] = .ok [2020, 2020] ∧
    ¬ List.Nodup [(2020 : Int), 2020] := by
  constructor
  · decide
  · decide

/-- C4 (amended): whenever `get_seasons` returns, the output is sorted
ascending, is a permutation of the parsed years that pass the inclusive
`[start_year, end_year]` filter (one entry per source item, duplicates in
the source retained — not deduplicated), and a year appears in the output
iff some source season parses to it and it lies within both inclusive
bounds (so a season equal to either bound is included). -/
theorem c4_amended_seasons (startYear endYear : Int) (data : List String) (out : List Int)
    (h : get_seasons startYear endYear data = .ok out) :
    List.Sorted (· ≤ ·) out ∧
    (∃ vals, mapE toIntE data = .ok vals ∧
      out.Perm (vals.filter (fun y => decide (startYear ≤ y ∧ y ≤ endYear)))) ∧
    (∀ y : Int, y ∈ out ↔ ∃ s ∈ data, pyInt s = some y ∧ startYear ≤ y ∧ y ≤ endYear) := by
  unfold get_seasons at h
  cases hm : mapE toIntE data with
  | error e => rw [hm] at h; cases h
  | ok vals =>
    rw [hm] at h
    injection h with h
    subst h
    refine ⟨List.sorted_insertionSort _ _, ⟨vals, rfl, List.perm_insertionSort _ _⟩, ?_⟩
    intro y
    have hperm := List.perm_insertionSort (· ≤ ·)
      (vals.filter (fun y => decide (startYear ≤ y ∧ y ≤ endYear)))
    rw [hperm.mem_iff, List.mem_filter]
    constructor
    · rintro ⟨hy, hcond⟩
      rcases forall2_mem_right ((mapE_ok_forall2 toIntE data vals).mp hm) y hy with ⟨s, hs, hok⟩
      rw [toIntE_ok_iff] at hok
      have hb := of_decide_eq_true hcond
      exact ⟨s, hs, hok, hb.1, hb.2⟩
    · rintro ⟨s, hs, hok, h1, h2⟩
      rcases forall2_mem_left ((mapE_ok_forall2 toIntE data vals).mp hm) s hs with ⟨b, hb, hok2⟩
      rw [toIntE_ok_iff] at hok2
      rw [hok] at hok2
      injection hok2 with hok2
      subst hok2
      exact ⟨hb, decide_eq_true ⟨h1, h2⟩⟩

/-- C4 witness: on a concrete response the output is sorted and a season
equal to the lower bound is included. -/
theorem c4_witness :
    List.Sorted (· ≤ ·) [(1950 : Int), 1999] ∧
    ((1950 : Int) ∈ [(1950 : Int), 1999] ↔
      ∃ s ∈ ["1950", "1999", "2005"], pyInt s = some 1950 ∧
        (1950 : Int) ≤ 1950 ∧ (1950 : Int) ≤ 2000) :=
  ⟨(c4_amended_seasons 1950 2000 ["1950", "1999", "2005"] [1950, 1999] (by decide)).1,
   (c4_amended_seasons 1950 2000 ["1950", "1999", "2005"] [1950, 1999] (by decide)).2.2 1950⟩

/-- Successful race-info construction: both `int(...)` calls parsed and the
record has the fixed five-field shape. -/
theorem resultRaceInfo_ok (race : SrcRace) (ri : Rec) (h : resultRaceInfo race = .ok ri) :
    ∃ sn rd, pyInt race.season = some sn ∧ pyInt race.round = some rd ∧
      ri = [("season", Val.int sn), ("round", Val.int rd),
            ("race_name", Val.str race.raceName),
            ("circuit_id", Val.str race.circuitId),
            ("date", Val.date race.date)] := by
  unfold resultRaceInfo at h
  cases hs : pyInt race.season with
  | none => rw [hs] at h; cases h
  | some sn =>
    cases hr : pyInt race.round with
    | none => rw [hs, hr] at h; dsimp only at h; cases h
    | some rd =>
      rw [hs, hr] at h
      dsimp only at h
      injection h with h
      exact ⟨sn, rd, rfl, rfl, h.symm⟩

/-- Characterization of a successful result-item extraction. -/
theorem extractResultItem_ok (ri : Rec) (r : SrcResult) (rec : Rec)
    (h : extractResultItem ri r = .ok rec) :
    ∃ laps pts, pyInt r.laps = some laps ∧ pyFloat r.points = some pts ∧
      ((r.FastestLap = Option.none ∧ rec = resultBase ri r laps pts) ∨
       (∃ fl rk, r.FastestLap = some fl ∧
         rec = resultBase ri r laps pts ++ flFields fl rk ∧
         ((fl.rank = Option.none ∧ rk = 0) ∨
          (∃ rs, fl.rank = some rs ∧ pyInt rs = some rk)))) := by
  unfold extractResultItem at h
  cases hl : toIntE r.laps with
  | error e => rw [hl] at h; cases h
  | ok laps =>
    rw [hl] at h
    dsimp only at h
    cases hp : toFloatE r.points with
    | error e => rw [hp] at h; cases h
    | ok pts =>
      rw [hp] at h
      dsimp only at h
      have hlaps := (toIntE_ok_iff r.laps laps).mp hl
      have hpts := (toFloatE_ok_iff r.points pts).mp hp
      cases hfl : r.FastestLap with
      | none =>
        rw [hfl] at h
        dsimp only at h
        injection h with h
        exact ⟨laps, pts, hlaps, hpts, Or.inl ⟨rfl, h.symm⟩⟩
      | some fl =>
        rw [hfl] at h
        dsimp only at h
        cases hrk : fl.rank with
        | none =>
          rw [hrk] at h
          dsimp only at h
          injection h with h
          exact ⟨laps, pts, hlaps, hpts,
            Or.inr ⟨fl, 0, rfl, h.symm, Or.inl ⟨hrk, rfl⟩⟩⟩
        | some rs =>
          rw [hrk] at h
          dsimp only at h
          cases hri2 : toIntE rs with
          | error e => rw [hri2] at h; cases h
          | ok rk =>
            rw [hri2] at h
            dsimp only at h
            injection h with h
            exact ⟨laps, pts, hlaps, hpts,
              Or.inr ⟨fl, rk, rfl, h.symm, Or.inr ⟨rs, hrk, (toIntE_ok_iff rs rk).mp hri2⟩⟩⟩

/-- A result item extracts successfully whenever its mandatory numeric
fields parse, whatever its `position` and `grid` strings contain. -/
theorem extractResultItem_isOk (ri : Rec) (r : SrcResult)
    (hl : (pyInt r.laps).isSome = true) (hp : (pyFloat r.points).isSome = true)
    (hr : rankParses r = true) :
    ∃ rec, extractResultItem ri r = .ok rec := by
  unfold extractResultItem
  cases hls : pyInt r.laps with
  | none => rw [hls] at hl; cases hl
  | some laps =>
    cases hps : pyFloat r.points with
    | none => rw [hps] at hp; cases hp
    | some pts =>
      have h1 : toIntE r.laps = .ok laps := (toIntE_ok_iff _ _).mpr hls
      have h2 : toFloatE r.points = .ok pts := (toFloatE_ok_iff _ _).mpr hps
      rw [h1, h2]
      dsimp only
      unfold rankParses at hr
      cases hfl : r.FastestLap with
      | none =>
        dsimp only
        exact ⟨_, rfl⟩
      | some fl =>
        rw [hfl] at hr
        dsimp only at hr ⊢
        cases hrk : fl.rank with
        | none =>
          dsimp only
          exact ⟨_, rfl⟩
        | some rs =>
          rw [hrk] at hr
          dsimp only at hr ⊢
          cases hrs : pyInt rs with
          | none => rw [hrs] at hr; cases hr
          | some rk =>
            rw [(toIntE_ok_iff _ _).mpr hrs]
            dsimp only
            exact ⟨_, rfl⟩

/-- Any key present in the shared race info is present, with the same value,
in every record derived from it. -/
theorem extractResultItem_preserves_ri (ri : Rec) (r : SrcResult) (rec : Rec)
    (h : extractResultItem ri r = .ok rec) (k : String) (v : Val)
    (hk : List.lookup k ri = some v) : List.lookup k rec = some v := by
  rcases extractResultItem_ok ri r rec h with ⟨laps, pts, _, _, hcase⟩
  rcases hcase with ⟨_, hrec⟩ | ⟨fl, rk, _, hrec, _⟩
  · rw [hrec]
    unfold resultBase
    rw [List.append_assoc, lookup_append, hk]
  · rw [hrec]
    unfold resultBase
    rw [List.append_assoc, List.append_assoc, lookup_append, hk]

/-- One race block of `get_results`: one record per result item, each
carrying the parent block's season, round and race name. -/
theorem extractResultsBlock_ok (race : SrcRace) (recs : List Rec)
    (h : extractResultsBlock race = .ok recs) :
    recs.length = race.Results.length ∧
    ∀ rec ∈ recs,
      List.lookup "season" rec = (pyInt race.season).map Val.int ∧
      List.lookup "round" rec = (pyInt race.round).map Val.int ∧
      List.lookup "race_name" rec = some (Val.str race.raceName) := by
  unfold extractResultsBlock at h
  cases hri : resultRaceInfo race with
  | error e => rw [hri] at h; cases h
  | ok ri =>
    rw [hri] at h
    dsimp only at h
    have hf := (mapE_ok_forall2 (extractResultItem ri) race.Results recs).mp h
    rcases resultRaceInfo_ok race ri hri with ⟨sn, rd, hsn, hrd, hshape⟩
    refine ⟨(List.Forall₂.length_eq hf).symm, ?_⟩
    intro rec hrec
    rcases forall2_mem_right hf rec hrec with ⟨r, hr, hok⟩
    have hseason : List.lookup "season" ri = some (Val.int sn) := by
      rw [hshape]; rfl
    have hround : List.lookup "round" ri = some (Val.int rd) := by
      rw [hshape]; rfl
    have hname : List.lookup "race_name" ri = some (Val.str race.raceName) := by
      rw [hshape]; rfl
    rw [hsn, hrd]
    exact ⟨extractResultItem_preserves_ri ri r rec hok _ _ hseason,
           extractResultItem_preserves_ri ri r rec hok _ _ hround,
           extractResultItem_preserves_ri ri r rec hok _ _ hname⟩

/-! ## Claims about get_results -/

/-- C5: whenever the results extractor returns, it returns exactly one
record per innermost result item — the sum of the per-race result counts,
with no merging or deduplication — and every record carries the season,
round and race name of its parent race block. -/
theorem c5_results_cardinality (racesData : List SrcRace) (out : List Rec)
    (h : get_results racesData = .ok out) :
    out.length = (racesData.map (fun race => race.Results.length)).sum ∧
    ∃ blocks, mapE extractResultsBlock racesData = .ok blocks ∧ out = blocks.flatten ∧
      List.Forall₂ (fun race recs =>
        recs.length = race.Results.length ∧
        ∀ rec ∈ recs,
          List.lookup "season" rec = (pyInt race.season).map Val.int ∧
          List.lookup "round" rec = (pyInt race.round).map Val.int ∧
          List.lookup "race_name" rec = some (Val.str race.raceName))
        racesData blocks := by
  unfold get_results at h
  cases hm : mapE extractResultsBlock racesData with
  | error e => rw [hm] at h; cases h
  | ok blocks =>
    rw [hm] at h
    dsimp only at h
    injection h with h
    subst h
    have hf := (mapE_ok_forall2 extractResultsBlock racesData blocks).mp hm
    have hforall := hf.imp (fun a b hab => extractResultsBlock_ok a b hab)
    refine ⟨?_, blocks, rfl, rfl, hforall⟩
    rw [List.length_flatten]
    rw [forall2_map_eq List.length (fun race => race.Results.length)
      (fun a b hab => hab.1) hforall]

/-- Position lookup in a result record: the guarded digit parse, `None` for
a non-digit source. -/
theorem lookup_rb_position (ri : Rec) (r : SrcResult) (laps : Int) (pts : ℚ) (tail : Rec)
    (hri : List.lookup "position" ri = Option.none) :
    List.lookup "position" (resultBase ri r laps pts ++ tail) =
      some (if pyIsDigit r.position then Val.int (digitsToNat r.position.data)
            else Val.none) := by
  unfold resultBase
  rw [List.append_assoc, List.append_assoc, lookup_append, hri]
  dsimp only
  rw [lookup_append]
  rfl

/-- Grid lookup in a result record. -/
theorem lookup_rb_grid (ri : Rec) (r : SrcResult) (laps : Int) (pts : ℚ) (tail : Rec)
    (hri : List.lookup "grid" ri = Option.none) :
    List.lookup "grid" (resultBase ri r laps pts ++ tail) =
      some (if pyIsDigit r.grid then Val.int (digitsToNat r.grid.data)
            else Val.none) := by
  unfold resultBase
  rw [List.append_assoc, List.append_assoc, lookup_append, hri]
  dsimp only
  rw [lookup_append]
  rfl

/-- Points lookup in a result record: the parsed float exactly as copied
from the source. -/
theorem lookup_rb_points (ri : Rec) (r : SrcResult) (laps : Int) (pts : ℚ) (tail : Rec)
    (hri : List.lookup "points" ri = Option.none) :
    List.lookup "points" (resultBase ri r laps pts ++ tail) = some (Val.num pts) := by
  unfold resultBase
  rw [List.append_assoc, List.append_assoc, lookup_append, hri]
  dsimp only
  rw [lookup_append]
  rfl

/-- Without a `FastestLap` block no rank entry exists in the base record. -/
theorem lookup_rb_flrank_none (ri : Rec) (r : SrcResult) (laps : Int) (pts : ℚ)
    (hri : List.lookup "fastest_lap_rank" ri = Option.none) :
    List.lookup "fastest_lap_rank" (resultBase ri r laps pts) = Option.none := by
  unfold resultBase
  rw [List.append_assoc, lookup_append, hri]
  dsimp only
  rw [lookup_append]
  cases ht : r.Time with
  | none => rfl
  | some tb =>
    rcases tb with ⟨tbt⟩
    cases tbt with
    | none => rfl
    | some t => rfl

/-- With a `FastestLap` block, the record carries the rank entry appended
by the extractor. -/
theorem lookup_rb_flrank_some (ri : Rec) (r : SrcResult) (laps : Int) (pts : ℚ)
    (fl : SrcFastestLap) (rk : Int)
    (hri : List.lookup "fastest_lap_rank" ri = Option.none) :
    List.lookup "fastest_lap_rank" (resultBase ri r laps pts ++ flFields fl rk) =
      some (Val.int rk) := by
  rw [lookup_append, lookup_rb_flrank_none ri r laps pts hri]
  rfl

/-- Race-time lookup in a base result record mirrors the doubly-guarded
source field. -/
theorem lookup_rb_race_time (ri : Rec) (r : SrcResult) (laps : Int) (pts : ℚ)
    (hri : List.lookup "race_time" ri = Option.none) :
    List.lookup "race_time" (resultBase ri r laps pts) =
      (r.Time.bind (fun tb => tb.time)).map Val.str := by
  unfold resultBase
  rw [List.append_assoc, lookup_append, hri]
  dsimp only
  rw [lookup_append]
  cases ht : r.Time with
  | none => rfl
  | some tb =>
    rcases tb with ⟨tbt⟩
    cases tbt with
    | none => rfl
    | some t => rfl

/-- Race-time lookup is unaffected by the appended fastest-lap fields. -/
theorem lookup_rb_fl_race_time (ri : Rec) (r : SrcResult) (laps : Int) (pts : ℚ)
    (fl : SrcFastestLap) (rk : Int)
    (hri : List.lookup "race_time" ri = Option.none) :
    List.lookup "race_time" (resultBase ri r laps pts ++ flFields fl rk) =
      (r.Time.bind (fun tb => tb.time)).map Val.str := by
  rw [lookup_append, lookup_rb_race_time ri r laps pts hri]
  cases ht : r.Time with
  | none =>
    rcases fl with ⟨rank, fltime⟩
    cases fltime with
    | none => rfl
    | some t => rfl
  | some tb =>
    rcases tb with ⟨tbt⟩
    cases tbt with
    | none =>
      rcases fl with ⟨rank, fltime⟩
      cases fltime with
      | none => rfl
      | some t => rfl
    | some t => rfl

/-- Without a `FastestLap` block the record has no fastest-lap time. -/
theorem lookup_rb_fltime_none (ri : Rec) (r : SrcResult) (laps : Int) (pts : ℚ)
    (hri : List.lookup "fastest_lap_time" ri = Option.none) :
    List.lookup "fastest_lap_time" (resultBase ri r laps pts) = Option.none := by
  unfold resultBase
  rw [List.append_assoc, lookup_append, hri]
  dsimp only
  rw [lookup_append]
  cases ht : r.Time with
  | none => rfl
  | some tb =>
    rcases tb with ⟨tbt⟩
    cases tbt with
    | none => rfl
    | some t => rfl

/-- With a `FastestLap` block the fastest-lap time mirrors the optional
nested `Time` value. -/
theorem lookup_rb_fl_fltime (ri : Rec) (r : SrcResult) (laps : Int) (pts : ℚ)
    (fl : SrcFastestLap) (rk : Int)
    (hri : List.lookup "fastest_lap_time" ri = Option.none) :
    List.lookup "fastest_lap_time" (resultBase ri r laps pts ++ flFields fl rk) =
      (fl.Time).map Val.str := by
  rw [lookup_append, lookup_rb_fltime_none ri r laps pts hri]
  rcases fl with ⟨rank, fltime⟩
  cases fltime with
  | none => rfl
  | some t => rfl

/-- A qualifying item whose position does not parse as an integer raises
`ValueError` from `int(qual["position"])`. -/
theorem extractQualItem_error (ri : Rec) (q : SrcQualResult)
    (hq : pyInt q.position = Option.none) :
    extractQualItem ri q = .error (.intParse q.position) := by
  unfold extractQualItem toIntE
  rw [hq]

/-! ## Claims about numeric coercion and defaults -/

/-- C2 counterexample: the qualifying extractor raises on a non-digit
position marker instead of producing an absent field. -/
theorem c2_qualifying_counterexample :
    get_qualifying [fixRace [] [fixQualR]] = .error (.intParse "R") := by
  decide

/-- C2 (amended): in the results extractor, a position or grid string that
is not all digits yields a null output value and never an error — the item
still extracts whenever its mandatory numeric fields parse; the qualifying
extractor instead parses position unconditionally, so a non-integer
qualifying position raises an error. -/
theorem c2_amended_numeric_coercion :
    (∀ (ri : Rec) (r : SrcResult) (rec : Rec),
        extractResultItem ri r = .ok rec →
        List.lookup "position" ri = Option.none →
        List.lookup "grid" ri = Option.none →
        (pyIsDigit r.position = false → List.lookup "position" rec = some Val.none) ∧
        (pyIsDigit r.grid = false → List.lookup "grid" rec = some Val.none)) ∧
    (∀ (ri : Rec) (r : SrcResult),
        (pyInt r.laps).isSome = true → (pyFloat r.points).isSome = true →
        rankParses r = true → ∃ rec, extractResultItem ri r = .ok rec) ∧
    (∀ (ri : Rec) (q : SrcQualResult),
        pyInt q.position = Option.none →
        extractQualItem ri q = .error (.intParse q.position)) := by
  refine ⟨?_, ?_, ?_⟩
  · intro ri r rec h hp hg
    rcases extractResultItem_ok ri r rec h with ⟨laps, pts, _, _, hcase⟩
    have hrec : ∃ tail, rec = resultBase ri r laps pts ++ tail := by
      rcases hcase with ⟨_, h2⟩ | ⟨fl, rk, _, h2, _⟩
      · exact ⟨[], by rw [h2, List.append_nil]⟩
      · exact ⟨flFields fl rk, h2⟩
    rcases hrec with ⟨tail, hrec⟩
    subst hrec
    constructor
    · intro hpos
      rw [lookup_rb_position ri r laps pts tail hp, hpos]
      simp
    · intro hgrid
      rw [lookup_rb_grid ri r laps pts tail hg, hgrid]
      simp
  · intro ri r hl hp hr
    exact extractResultItem_isOk ri r hl hp hr
  · intro ri q hq
    exact extractQualItem_error ri q hq

/-- C2 witness: the retired fixture yields a null position without an
error, and the non-digit qualifying fixture raises. -/
theorem c2_witness :
    List.lookup "position" fixRetiredRec = some Val.none ∧
    (∃ rec, extractResultItem [] fixResultRetired = .ok rec) ∧
    extractQualItem [] fixQualR = .error (.intParse fixQualR.position) :=
  ⟨(c2_amended_numeric_coercion.1 [] fixResultRetired fixRetiredRec
      (by decide) (by rfl) (by rfl)).1 (by decide),
   c2_amended_numeric_coercion.2.1 [] fixResultRetired (by decide) (by decide) (by decide),
   c2_amended_numeric_coercion.2.2 [] fixQualR (by decide)⟩

/-- C3 counterexample: a present `FastestLap` block without a `rank` key
produces `fastest_lap_rank = 0` in the output record, not an absent
field. -/
theorem c3_rank_default_counterexample :
    get_results [fixRace [fixResultRetired] []] = .ok [fixRaceInfoRec ++ fixRetiredRec] ∧
    fixResultRetired.FastestLap = some { rank := Option.none, Time := Option.none } ∧
    List.lookup "fastest_lap_rank" (fixRaceInfoRec ++ fixRetiredRec) = some (Val.int 0) := by
  exact ⟨by decide, by decide, by decide⟩

/-- C3 (amended): non-digit position markers become null values (never a
zero) and an absent `FastestLap` block leaves the rank field absent, but a
present `FastestLap` block lacking a `rank` key is converted to the default
rank 0 by `int(fastest_lap.get("rank", 0))`. -/
theorem c3_amended_defaults :
    (∀ (ri : Rec) (r : SrcResult) (rec : Rec),
        extractResultItem ri r = .ok rec →
        List.lookup "fastest_lap_rank" ri = Option.none →
        ((∀ fl, r.FastestLap = some fl → fl.rank = Option.none →
            List.lookup "fastest_lap_rank" rec = some (Val.int 0)) ∧
         (r.FastestLap = Option.none →
            List.lookup "fastest_lap_rank" rec = Option.none))) ∧
    (∀ (ri : Rec) (r : SrcResult) (rec : Rec),
        extractResultItem ri r = .ok rec →
        List.lookup "position" ri = Option.none →
        pyIsDigit r.position = false →
        List.lookup "position" rec = some Val.none ∧
        List.lookup "position" rec ≠ some (Val.int 0)) := by
  constructor
  · intro ri r rec h hri
    rcases extractResultItem_ok ri r rec h with ⟨laps, pts, _, _, hcase⟩
    constructor
    · intro fl hfl hrank
      rcases hcase with ⟨hno, _⟩ | ⟨fl2, rk, hfl2, hrec, hrk⟩
      · rw [hno] at hfl; cases hfl
      · rw [hfl] at hfl2
        injection hfl2 with hfl2
        subst hfl2
        rcases hrk with ⟨_, hrk0⟩ | ⟨rs, hrs, _⟩
        · subst hrk0
          rw [hrec]
          exact lookup_rb_flrank_some ri r laps pts fl 0 hri
        · rw [hrank] at hrs; cases hrs
    · intro hno
      rcases hcase with ⟨_, hrec⟩ | ⟨fl2, rk, hfl2, _, _⟩
      · rw [hrec]
        exact lookup_rb_flrank_none ri r laps pts hri
      · rw [hno] at hfl2; cases hfl2
  · intro ri r rec h hri hpos
    rcases extractResultItem_ok ri r rec h with ⟨laps, pts, _, _, hcase⟩
    have hrec : ∃ tail, rec = resultBase ri r laps pts ++ tail := by
      rcases hcase with ⟨_, h2⟩ | ⟨fl, rk, _, h2, _⟩
      · exact ⟨[], by rw [h2, List.append_nil]⟩
      · exact ⟨flFields fl rk, h2⟩
    rcases hrec with ⟨tail, hrec⟩
    subst hrec
    rw [lookup_rb_position ri r laps pts tail hri, hpos]
    constructor
    · simp
    · simp

/-- C3 witness: the retired fixture gets rank 0 and a null (not zero)
position. -/
theorem c3_witness :
    List.lookup "fastest_lap_rank" fixRetiredRec = some (Val.int 0) ∧
    List.lookup "position" fixRetiredRec = some Val.none :=
  ⟨(c3_amended_defaults.1 [] fixResultRetired fixRetiredRec (by decide) (by rfl)).1
      { rank := Option.none, Time := Option.none } (by decide) (by decide),
   ((c3_amended_defaults.2 [] fixResultRetired fixRetiredRec (by decide) (by rfl)
      (by decide)).1)⟩

/-- C8 counterexample: a source points string of `-1` is copied into the
output as the negative value `-1`; the extractor enforces no
non-negativity. -/
theorem c8_negative_points_counterexample :
    get_results [fixRace [fixResultRetired] []] = .ok [fixRaceInfoRec ++ fixRetiredRec] ∧
    List.lookup "points" (fixRaceInfoRec ++ fixRetiredRec) = some (Val.num (-1)) ∧
    (-1 : ℚ) < 0 := by
  exact ⟨by decide, by decide, by decide⟩

/-- C8 (amended): the points field is the float parse of the source points
string, copied verbatim with no validation — it is non-negative exactly
when the source value is. -/
theorem c8_amended_points_copied (ri : Rec) (r : SrcResult) (rec : Rec)
    (h : extractResultItem ri r = .ok rec)
    (hri : List.lookup "points" ri = Option.none) :
    ∃ q, pyFloat r.points = some q ∧ List.lookup "points" rec = some (Val.num q) ∧
      (0 ≤ q → ∀ q2, List.lookup "points" rec = some (Val.num q2) → 0 ≤ q2) := by
  rcases extractResultItem_ok ri r rec h with ⟨laps, pts, _, hp, hcase⟩
  have hrec : ∃ tail, rec = resultBase ri r laps pts ++ tail := by
    rcases hcase with ⟨_, h2⟩ | ⟨fl, rk, _, h2, _⟩
    · exact ⟨[], by rw [h2, List.append_nil]⟩
    · exact ⟨flFields fl rk, h2⟩
  rcases hrec with ⟨tail, hrec⟩
  subst hrec
  refine ⟨pts, hp, lookup_rb_points ri r laps pts tail hri, ?_⟩
  intro h0 q2 hq2
  rw [lookup_rb_points ri r laps pts tail hri] at hq2
  injection hq2 with hq2
  injection hq2 with hq2
  rw [← hq2]
  exact h0

/-- C8 witness: the `-1` points fixture is copied through unchanged. -/
theorem c8_witness : List.lookup "points" fixRetiredRec = some (Val.num (-1)) := by
  rcases c8_amended_points_copied [] fixResultRetired fixRetiredRec (by decide) rfl
    with ⟨q, hq, hlook, _⟩
  have hqv : q = -1 := by
    rw [show pyFloat fixResultRetired.points = some (-1) from by decide] at hq
    injection hq with hq
    exact hq.symm
  rw [hqv] at hlook
  exact hlook

/-- C5 witness: two race blocks with one and zero results yield exactly one
record. -/
theorem c5_witness :
    ([fixRaceInfoRec ++ fixRetiredRec] : List Rec).length =
      ([fixRace [fixResultRetired] [], fixRace [] []].map
        (fun race => race.Results.length)).sum :=
  (c5_results_cardinality [fixRace [fixResultRetired] [], fixRace [] []]
    [fixRaceInfoRec ++ fixRetiredRec] (by decide)).1

/-- Successful race-record construction in `get_races`: both `int(...)`
calls parsed and the record has the literal shape with an optional trailing
time entry. -/
theorem extractRaceRecord_ok (race : SrcRace) (rec : Rec)
    (h : extractRaceRecord race = .ok rec) :
    ∃ sn rd, pyInt race.season = some sn ∧ pyInt race.round = some rd ∧
      rec = [("season", Val.int sn), ("round", Val.int rd),
             ("race_id", Val.str (race.season ++ "_" ++ race.round)),
             ("race_name", Val.str race.raceName),
             ("circuit_id", Val.str race.circuitId),
             ("circuit_name", Val.str race.circuitName),
             ("country", Val.str race.country),
             ("date", Val.date race.date),
             ("url", Val.str (race.url.getD ""))] ++
            (match race.time with
             | some t => [("time", Val.str t)]
             | Option.none => []) := by
  unfold extractRaceRecord at h
  cases hs : pyInt race.season with
  | none => rw [hs] at h; cases h
  | some sn =>
    cases hr : pyInt race.round with
    | none => rw [hs, hr] at h; dsimp only at h; cases h
    | some rd =>
      rw [hs, hr] at h
      dsimp only at h
      injection h with h
      exact ⟨sn, rd, rfl, rfl, h.symm⟩

/-- Successful qualifying-record construction: the position parsed and the
record is the race info extended with the driver fields and the optional
session times. -/
theorem extractQualItem_ok (ri : Rec) (q : SrcQualResult) (rec : Rec)
    (h : extractQualItem ri q = .ok rec) :
    ∃ pos, pyInt q.position = some pos ∧
      rec = ri ++ [("position", Val.int pos),
        ("driver_id", Val.str q.Driver.driverId),
        ("driver_name", Val.str (q.Driver.givenName ++ " " ++ q.Driver.familyName)),
        ("constructor_id", Val.str q.Constructor.constructorId),
        ("constructor_name", Val.str q.Constructor.name)] ++ qualSessionFields q := by
  unfold extractQualItem at h
  cases hp : toIntE q.position with
  | error e => rw [hp] at h; cases h
  | ok pos =>
    rw [hp] at h
    dsimp only at h
    injection h with h
    exact ⟨pos, (toIntE_ok_iff _ _).mp hp, h.symm⟩

/-- Session-time lookups in a qualifying record mirror the optional source
fields. -/
theorem lookup_qual_sessions (ri : Rec) (q : SrcQualResult) (rec : Rec)
    (h : extractQualItem ri q = .ok rec)
    (h1 : List.lookup "q1_time" ri = Option.none)
    (h2 : List.lookup "q2_time" ri = Option.none)
    (h3 : List.lookup "q3_time" ri = Option.none) :
    List.lookup "q1_time" rec = (q.Q1).map Val.str ∧
    List.lookup "q2_time" rec = (q.Q2).map Val.str ∧
    List.lookup "q3_time" rec = (q.Q3).map Val.str := by
  rcases extractQualItem_ok ri q rec h with ⟨pos, _, hrec⟩
  subst hrec
  rcases q with ⟨qpos, qd, qc, q1, q2, q3⟩
  refine ⟨?_, ?_, ?_⟩
  · rw [List.append_assoc, lookup_append, h1]
    dsimp only
    cases q1 <;> cases q2 <;> cases q3 <;> rfl
  · rw [List.append_assoc, lookup_append, h2]
    dsimp only
    cases q1 <;> cases q2 <;> cases q3 <;> rfl
  · rw [List.append_assoc, lookup_append, h3]
    dsimp only
    cases q1 <;> cases q2 <;> cases q3 <;> rfl

/-! ## Claims about optional fields -/

/-- C6 counterexample: a driver without a url in the source still carries a
url entry in the output record — the empty-string placeholder — rather
than having no url value. -/
theorem c6_url_placeholder_counterexample :
    get_drivers [fixDriver] = [fixDriverRec] ∧
    fixDriver.url = Option.none ∧
    List.lookup "url" fixDriverRec = some (Val.str "") := by
  exact ⟨by decide, by decide, by decide⟩

/-- C6 (amended): the genuinely conditional fields — qualifying session
times, race time, fastest-lap time, race local time, driver date of
birth — appear in a record exactly when present in the source, and their
absence never raises; the url field however is always present, defaulting
to the empty string when the source has no url. -/
theorem c6_amended_optional_fields :
    (∀ (race : SrcRace) (rec : Rec), extractRaceRecord race = .ok rec →
        List.lookup "time" rec = (race.time).map Val.str ∧
        List.lookup "url" rec = some (Val.str (race.url.getD ""))) ∧
    (∀ d : SrcDriver,
        List.lookup "date_of_birth" (extractDriverRecord d) =
          (d.dateOfBirth).map Val.date ∧
        List.lookup "url" (extractDriverRecord d) = some (Val.str (d.url.getD ""))) ∧
    (∀ c : SrcConstructor,
        List.lookup "url" (extractConstructorRecord c) = some (Val.str (c.url.getD ""))) ∧
    (∀ (ri : Rec) (q : SrcQualResult) (rec : Rec),
        extractQualItem ri q = .ok rec →
        List.lookup "q1_time" ri = Option.none →
        List.lookup "q2_time" ri = Option.none →
        List.lookup "q3_time" ri = Option.none →
        List.lookup "q1_time" rec = (q.Q1).map Val.str ∧
        List.lookup "q2_time" rec = (q.Q2).map Val.str ∧
        List.lookup "q3_time" rec = (q.Q3).map Val.str) ∧
    (∀ (ri : Rec) (r : SrcResult) (rec : Rec),
        extractResultItem ri r = .ok rec →
        List.lookup "race_time" ri = Option.none →
        List.lookup "race_time" rec = (r.Time.bind (fun tb => tb.time)).map Val.str) ∧
    (∀ (ri : Rec) (r : SrcResult) (rec : Rec),
        extractResultItem ri r = .ok rec →
        List.lookup "fastest_lap_time" ri = Option.none →
        ((r.FastestLap = Option.none →
            List.lookup "fastest_lap_time" rec = Option.none) ∧
         (∀ fl, r.FastestLap = some fl →
            List.lookup "fastest_lap_time" rec = (fl.Time).map Val.str))) := by
  refine ⟨?_, ?_, ?_, ?_, ?_, ?_⟩
  · intro race rec h
    rcases extractRaceRecord_ok race rec h with ⟨sn, rd, _, _, hrec⟩
    subst hrec
    cases ht : race.time with
    | none => exact ⟨rfl, rfl⟩
    | some t => exact ⟨rfl, rfl⟩
  · intro d
    unfold extractDriverRecord
    cases hd : d.dateOfBirth with
    | none => exact ⟨rfl, rfl⟩
    | some dob => exact ⟨rfl, rfl⟩
  · intro c
    rfl
  · intro ri q rec h h1 h2 h3
    exact lookup_qual_sessions ri q rec h h1 h2 h3
  · intro ri r rec h hri
    rcases extractResultItem_ok ri r rec h with ⟨laps, pts, _, _, hcase⟩
    rcases hcase with ⟨_, hrec⟩ | ⟨fl, rk, _, hrec, _⟩
    · rw [hrec]
      exact lookup_rb_race_time ri r laps pts hri
    · rw [hrec]
      exact lookup_rb_fl_race_time ri r laps pts fl rk hri
  · intro ri r rec h hri
    rcases extractResultItem_ok ri r rec h with ⟨laps, pts, _, _, hcase⟩
    constructor
    · intro hno
      rcases hcase with ⟨_, hrec⟩ | ⟨fl, rk, hfl, _, _⟩
      · rw [hrec]
        exact lookup_rb_fltime_none ri r laps pts hri
      · rw [hno] at hfl; cases hfl
    · intro fl hfl
      rcases hcase with ⟨hno, _⟩ | ⟨fl2, rk, hfl2, hrec, _⟩
      · rw [hno] at hfl; cases hfl
      · rw [hfl] at hfl2
        injection hfl2 with hfl2
        subst hfl2
        rw [hrec]
        exact lookup_rb_fl_fltime ri r laps pts fl rk hri

/-- C6 witness: concrete records for a race without a local time, a driver
without a date of birth, and a qualifying entry with only a Q1 time. -/
theorem c6_witness :
    (List.lookup "time" fixRaceRec = Option.none ∧
      List.lookup "url" fixRaceRec = some (Val.str "")) ∧
    (List.lookup "date_of_birth" fixDriverRec = Option.none ∧
      List.lookup "url" fixDriverRec = some (Val.str "")) ∧
    (List.lookup "q1_time" fixQualOkRec = some (Val.str "1:30.0") ∧
      List.lookup "q2_time" fixQualOkRec = Option.none) := by
  refine ⟨?_, ?_, ?_⟩
  · exact c6_amended_optional_fields.1 (fixRace [] []) fixRaceRec (by decide)
  · exact c6_amended_optional_fields.2.1 fixDriver
  · have := c6_amended_optional_fields.2.2.2.1 [] fixQualOk fixQualOkRec
      (by decide) rfl rfl rfl
    exact ⟨this.1, this.2.1⟩

/-! ## Helper lemmas: canonical decimal strings and race ids -/

/-- On an all-digit string, `int(...)` returns its decimal value. -/
theorem pyInt_digits (s : String) (h : pyIsDigit s = true) :
    pyInt s = some ((digitsToNat s.data : Nat) : Int) := by
  unfold pyIsDigit at h
  rw [Bool.and_eq_true] at h
  rcases h with ⟨hne, hall⟩
  unfold pyInt pyIntChars
  cases hcs : s.data with
  | nil => rw [hcs] at hne; simp at hne
  | cons c cs =>
    rw [hcs] at hall
    have hc : c.isDigit = true := by
      rw [List.all_cons, Bool.and_eq_true] at hall
      exact hall.1
    have hplus : c ≠ '+' := by
      intro e
      rw [e] at hc
      exact absurd hc (by decide)
    have hminus : c ≠ '-' := by
      intro e
      rw [e] at hc
      exact absurd hc (by decide)
    have h1 : ¬((c :: cs).head? = some '+') := by
      simp only [List.head?_cons, Option.some.injEq]
      exact hplus
    have h2 : ¬((c :: cs).head? = some '-') := by
      simp only [List.head?_cons, Option.some.injEq]
      exact hminus
    rw [if_neg h1, if_neg h2]
    unfold pyNatCore
    rw [if_pos]
    · rfl
    · simp [hall]

/-- Unpack the canonical-decimal predicate. -/
theorem isCanonNat_spec (s : String) (h : isCanonNat s = true) :
    pyIsDigit s = true ∧ toString (digitsToNat s.data) = s := by
  unfold isCanonNat at h
  rw [Bool.and_eq_true] at h
  refine ⟨h.1, ?_⟩
  have h2 := h.2
  rwa [beq_iff_eq] at h2

/-- An all-digit string contains no underscore. -/
theorem no_underscore_of_digits (s : String) (h : pyIsDigit s = true) :
    '_' ∉ s.data := by
  unfold pyIsDigit at h
  rw [Bool.and_eq_true] at h
  intro hmem
  have hv := List.all_eq_true.mp h.2 _ hmem
  exact absurd hv (by decide)

/-- Splitting at a separator absent from both prefixes is injective. -/
theorem underscore_append_inj :
    ∀ (xs zs ys ws : List Char), '_' ∉ xs → '_' ∉ zs →
      xs ++ '_' :: ys = zs ++ '_' :: ws → xs = zs ∧ ys = ws := by
  intro xs
  induction xs with
  | nil =>
    intro zs ys ws _ hz h
    cases zs with
    | nil =>
      simp at h
      exact ⟨rfl, h⟩
    | cons z zs2 =>
      simp at h
      rcases h with ⟨h1, _⟩
      subst h1
      exact absurd (List.mem_cons_self _ _) hz
  | cons x xs2 ih =>
    intro zs ys ws hx hz h
    cases zs with
    | nil =>
      simp at h
      rcases h with ⟨h1, _⟩
      subst h1
      exact absurd (List.mem_cons_self _ _) hx
    | cons z zs2 =>
      simp at h
      rcases h with ⟨hxz, hrest⟩
      have hx2 : '_' ∉ xs2 := fun m => hx (List.mem_cons_of_mem _ m)
      have hz2 : '_' ∉ zs2 := fun m => hz (List.mem_cons_of_mem _ m)
      rcases ih zs2 ys ws hx2 hz2 hrest with ⟨e1, e2⟩
      exact ⟨by rw [hxz, e1], e2⟩

/-- The `"{season}_{round}"` id determines both components when neither
contains an underscore. -/
theorem race_id_inj (a b c d : String)
    (ha : '_' ∉ a.data) (hc : '_' ∉ c.data)
    (h : a ++ "_" ++ b = c ++ "_" ++ d) : a = c ∧ b = d := by
  have hd : (a ++ "_" ++ b).data = (c ++ "_" ++ d).data := by rw [h]
  rw [String.data_append, String.data_append, String.data_append,
    String.data_append] at hd
  have h2 : a.data ++ '_' :: b.data = c.data ++ '_' :: d.data := by
    simpa using hd
  rcases underscore_append_inj a.data c.data b.data d.data ha hc h2 with ⟨e1, e2⟩
  exact ⟨String.ext e1, String.ext e2⟩

/-- Per-record id facts in `get_races`: the id is built from the parent
block's raw season and round strings, and for canonical decimal sources it
equals the decimal rendering of the record's own season and round. -/
theorem raceRecord_id_spec (race : SrcRace) (rec : Rec)
    (hok : extractRaceRecord race = .ok rec) :
    List.lookup "race_id" rec = some (Val.str (race.season ++ "_" ++ race.round)) ∧
    (isCanonNat race.season = true → isCanonNat race.round = true →
      List.lookup "season" rec = some (Val.int (digitsToNat race.season.data)) ∧
      List.lookup "round" rec = some (Val.int (digitsToNat race.round.data)) ∧
      race.season ++ "_" ++ race.round =
        toString (digitsToNat race.season.data) ++ "_" ++
          toString (digitsToNat race.round.data)) := by
  rcases extractRaceRecord_ok race rec hok with ⟨sn, rd, hsn, hrd, hrec⟩
  subst hrec
  refine ⟨rfl, fun hcs hcr => ?_⟩
  rcases isCanonNat_spec _ hcs with ⟨hds, hts⟩
  rcases isCanonNat_spec _ hcr with ⟨hdr, htr⟩
  have e1 : sn = ((digitsToNat race.season.data : Nat) : Int) := by
    have hx := pyInt_digits _ hds
    rw [hsn] at hx
    exact Option.some.inj hx
  have e2 : rd = ((digitsToNat race.round.data : Nat) : Int) := by
    have hx := pyInt_digits _ hdr
    rw [hrd] at hx
    exact Option.some.inj hx
  refine ⟨?_, ?_, ?_⟩
  · rw [← e1]
    rfl
  · rw [← e2]
    rfl
  · rw [hts, htr]

/-! ## Claims about get_races ids -/

/-- C7 counterexample: two identical race blocks in one response produce
two records with the same race id — uniqueness is not enforced. -/
theorem c7_unique_id_counterexample :
    get_races [fixRace [] [], fixRace [] []] = .ok [fixRaceRec, fixRaceRec] ∧
    ¬ ([fixRaceRec, fixRaceRec].map (List.lookup "race_id")).Nodup := by
  exact ⟨by decide, by decide⟩

/-- C7 (amended): every race record's id is the string
`"{season}_{round}"` built from its parent block's raw season and round
strings (for canonical decimal sources this coincides with the record's own
season and round fields); the ids are unique across the returned table
provided the response contains no two race blocks with the same
(season, round) pair — the code does not deduplicate. -/
theorem c7_amended_race_id (racesData : List SrcRace) (out : List Rec)
    (h : get_races racesData = .ok out) :
    List.Forall₂ (fun race rec =>
        List.lookup "race_id" rec =
          some (Val.str (race.season ++ "_" ++ race.round)) ∧
        (isCanonNat race.season = true → isCanonNat race.round = true →
          List.lookup "season" rec = some (Val.int (digitsToNat race.season.data)) ∧
          List.lookup "round" rec = some (Val.int (digitsToNat race.round.data)) ∧
          race.season ++ "_" ++ race.round =
            toString (digitsToNat race.season.data) ++ "_" ++
              toString (digitsToNat race.round.data)))
      racesData out ∧
    ((∀ race ∈ racesData, pyIsDigit race.season = true ∧ pyIsDigit race.round = true) →
      (racesData.map (fun race => (race.season, race.round))).Nodup →
      (out.map (List.lookup "race_id")).Nodup) := by
  unfold get_races at h
  have hf := (mapE_ok_forall2 extractRaceRecord racesData out).mp h
  have hforall := hf.imp (fun race rec hok => raceRecord_id_spec race rec hok)
  refine ⟨hforall, ?_⟩
  intro hdig hnd
  have hmap := forall2_map_eq (List.lookup "race_id")
    (fun race => some (Val.str (race.season ++ "_" ++ race.round)))
    (fun a b hab => hab.1) hforall
  rw [hmap]
  have hfac : racesData.map (fun race => some (Val.str (race.season ++ "_" ++ race.round)))
      = (racesData.map (fun race => (race.season, race.round))).map
          (fun p => some (Val.str (p.1 ++ "_" ++ p.2))) := by
    rw [List.map_map]
    rfl
  rw [hfac]
  apply List.Nodup.map_on ?_ hnd
  intro p1 hp1 p2 hp2 he
  injection he with he
  injection he with he
  rcases List.mem_map.mp hp1 with ⟨r1, hr1, hpe1⟩
  rcases List.mem_map.mp hp2 with ⟨r2, hr2, hpe2⟩
  subst hpe1
  subst hpe2
  dsimp only at he
  have d1 := hdig r1 hr1
  have d2 := hdig r2 hr2
  have hcomp := race_id_inj _ _ _ _ (no_underscore_of_digits _ d1.1)
    (no_underscore_of_digits _ d2.1) he
  rw [hcomp.1, hcomp.2]

/-- C7 witness: a single-block response with canonical digit strings has a
duplicate-free id column. -/
theorem c7_witness :
    ([fixRaceRec].map (List.lookup "race_id")).Nodup :=
  (c7_amended_race_id [fixRace [] []] [fixRaceRec] (by decide)).2 (by decide) (by decide)
